import Mathlib

/-
Shallow embedding of the finite-state-machine engine in machine.py.

The Python model object is split into explicit pieces:
  * Model: the mutable instance data (the current-state string plus a data
    payload standing for the rest of the instance attributes);
  * MethodTable: the methods reachable by getattr-by-name resolution,
    split into side-effecting callbacks and boolean guard predicates;
  * Attrs: the attribute namespace the Machine mutates via setattr
    (trigger entry points, the generic trigger, is_<state> accessors).

Python exceptions are modelled by an error monad.  A raised exception
carries the model as it was at the raise point, since Python exceptions
do not roll back mutations already made to the model object.
-/

namespace FSM

/-- Faults the engine or user code can raise.  The constructors carry the
data the corresponding Python exception message is formatted from:
machineError t s stands for MachineError (from Event trigger resolution,
message naming the trigger t and the state s), valueError s stands for the
ValueError raised by Machine.get_state on an unregistered state name s,
attributeError n stands for the AttributeError of a failed getattr for
name n, and userError is an arbitrary exception raised by user code. -/
inductive Fault where
  | machineError (trigger : String) (state : String)
  | valueError (state : String)
  | attributeError (name : String)
  | userError (msg : String)
deriving DecidableEq, Repr

/-- The model instance data: the current-state value (model.state in the
source) plus a payload for all other instance attributes. -/
structure Model (α : Type) where
  state : String
  data : α
deriving DecidableEq, Repr

/-- A user callback: may mutate the model or raise; a raise carries the
model at the raise point. -/
abbrev Callback (α : Type) := Model α → Except (Fault × Model α) (Model α)

/-- A user guard predicate: returns a boolean or raises. -/
abbrev Predicate (α : Type) := Model α → Except Fault Bool

/-- A callback reference: either a symbolic name resolved against the
model by getattr, or a direct callable (machine.py accepts both). -/
inductive CallbackRef (α : Type) where
  | named (name : String)
  | direct (f : Callback α)

/-- A condition-function reference: symbolic name or direct callable,
as accepted by Condition in machine.py. -/
inductive CondRef (α : Type) where
  | named (name : String)
  | direct (p : Predicate α)

/-- The methods reachable on the model by name (the getattr namespace
used by trigger_callback and Condition.check). -/
structure MethodTable (α : Type) where
  callbacks : List (String × Callback α)
  predicates : List (String × Predicate α)

/-- Attribute values the Machine setattr-s onto the model. -/
inductive AttrVal where
  | user (id : Nat)
  | triggerEntry (name : String)
  | genericTrigger
  | statePredicate (name : String)
deriving DecidableEq, Repr

/-- The attribute namespace of the model that the Machine mutates. -/
abbrev Attrs := List (String × AttrVal)

/-- Association-list lookup (Python dict read). -/
def alookup {β : Type _} (k : String) : List (String × β) → Option β
  | [] => none
  | (k₂, v) :: rest => if k₂ = k then some v else alookup k rest

/-- Association-list write: replace in place if the key exists, else
append (semantics of both dict assignment and setattr). -/
def assocSet {β : Type _} (k : String) (v : β) : List (String × β) → List (String × β)
  | [] => [(k, v)]
  | (k₂, v₂) :: rest => if k₂ = k then (k, v) :: rest else (k₂, v₂) :: assocSet k v rest

/-- defaultdict(list) append: extend the entry for k, creating it at the
end on first use (Event.add_transition uses this). -/
def addToGroup {β : Type _} (k : String) (v : β) : List (String × List β) → List (String × List β)
  | [] => [(k, [v])]
  | (k₂, vs) :: rest =>
    if k₂ = k then (k₂, vs ++ [v]) :: rest else (k₂, vs) :: addToGroup k v rest

/-- hasattr on the machine-managed attribute namespace. -/
def hasattr (a : Attrs) (k : String) : Bool := (alookup k a).isSome

/-- State: a name plus ordered enter and exit callback-reference lists
(class State in machine.py). -/
structure State (α : Type) where
  name : String
  on_enter : List (CallbackRef α)
  on_exit : List (CallbackRef α)

/-- State.add_callback: append a callback reference to the named list. -/
def State.add_callback {α : Type} (st : State α) (kind : String) (f : CallbackRef α) : State α :=
  if kind = "on_enter" then { st with on_enter := st.on_enter ++ [f] }
  else if kind = "on_exit" then { st with on_exit := st.on_exit ++ [f] }
  else st

/-- Condition: a single guard reference (class Condition in machine.py). -/
structure Condition (α : Type) where
  func : CondRef α

/-- Condition.check: resolve the reference against the model (getattr
when symbolic, AttributeError fault when absent), call it, and compare
the result with the target polarity. -/
def Condition.check {α : Type} (mt : MethodTable α) (c : Condition α) (m : Model α)
    (target : Bool) : Except Fault Bool :=
  match c.func with
  | CondRef.named n =>
    match alookup n mt.predicates with
    | some p => (p m).map (fun b => b == target)
    | none => Except.error (Fault.attributeError n)
  | CondRef.direct p => (p m).map (fun b => b == target)

/-- Transition: source name, destination name, owned ordered Conditions
(class Transition in machine.py). -/
structure Transition (α : Type) where
  source : String
  dest : String
  conditions : List (Condition α)

/-- Machine.trigger_callback: resolve a callback reference by getattr
when symbolic (AttributeError fault when absent) and invoke it. -/
def trigger_callback {α : Type} (mt : MethodTable α) (c : CallbackRef α) (m : Model α) :
    Except (Fault × Model α) (Model α) :=
  match c with
  | CallbackRef.named n =>
    match alookup n mt.callbacks with
    | some f => f m
    | none => Except.error (Fault.attributeError n, m)
  | CallbackRef.direct f => f m

/-- Run a callback-reference list in order, stopping at the first fault
(the loop body of State.enter and State.exit). -/
def runCallbacks {α : Type} (mt : MethodTable α) :
    List (CallbackRef α) → Model α → Except (Fault × Model α) (Model α)
  | [], m => Except.ok m
  | c :: cs, m =>
    match trigger_callback mt c m with
    | Except.ok m₂ => runCallbacks mt cs m₂
    | Except.error e => Except.error e

/-- State.enter: invoke each on_enter callback in declaration order. -/
def State.enter {α : Type} (st : State α) (mt : MethodTable α) (m : Model α) :
    Except (Fault × Model α) (Model α) :=
  runCallbacks mt st.on_enter m

/-- State.exit: invoke each on_exit callback in declaration order. -/
def State.exit {α : Type} (st : State α) (mt : MethodTable α) (m : Model α) :
    Except (Fault × Model α) (Model α) :=
  runCallbacks mt st.on_exit m

/-- The condition loop of Transition.execute: check each Condition in
declaration order; stop with false at the first failing one; propagate
the first fault. -/
def checkConditions {α : Type} (mt : MethodTable α) (m : Model α) (target : Bool) :
    List (Condition α) → Except Fault Bool
  | [] => Except.ok true
  | c :: cs =>
    match c.check mt m target with
    | Except.ok true => checkConditions mt m target cs
    | Except.ok false => Except.ok false
    | Except.error f => Except.error f

/-- Event: a trigger name plus a mapping from source-state name to the
ordered list of candidate Transitions (class Event in machine.py; the
machine and model back-references are passed explicitly instead). -/
structure Event (α : Type) where
  name : String
  transitions : List (String × List (Transition α))

/-- Event.add_transition: append under the transition source key. -/
def Event.add_transition {α : Type} (ev : Event α) (t : Transition α) : Event α :=
  { ev with transitions := addToGroup t.source t ev.transitions }

/-- Machine: the state registry (OrderedDict), the event registry, and
the declared initial state name (class Machine in machine.py; the bound
model is threaded explicitly). -/
structure Machine (α : Type) where
  states : List (String × State α)
  events : List (String × Event α)
  initial : String

/-- Machine.get_state: registry lookup, ValueError fault when absent. -/
def Machine.get_state {α : Type} (mc : Machine α) (s : String) : Except Fault (State α) :=
  match alookup s mc.states with
  | some st => Except.ok st
  | none => Except.error (Fault.valueError s)

/-- Machine.set_state: resolve the name (ValueError when unregistered)
and write the resolved state name into the model. -/
def Machine.set_state {α : Type} (mc : Machine α) (s : String) (m : Model α) :
    Except Fault (Model α) :=
  match mc.get_state s with
  | Except.ok st => Except.ok { m with state := st.name }
  | Except.error f => Except.error f

/-- Transition.execute: evaluate the Conditions in order; on first
failure return false with nothing else done; otherwise exit the source
state, commit the destination name into the model, enter the destination
state, and return true.  Faults carry the model at the raise point. -/
def Transition.execute {α : Type} (t : Transition α) (mc : Machine α) (mt : MethodTable α)
    (m : Model α) (target : Bool) : Except (Fault × Model α) (Bool × Model α) :=
  match checkConditions mt m target t.conditions with
  | Except.error f => Except.error (f, m)
  | Except.ok false => Except.ok (false, m)
  | Except.ok true =>
    match mc.get_state t.source with
    | Except.error f => Except.error (f, m)
    | Except.ok src =>
      match src.exit mt m with
      | Except.error e => Except.error e
      | Except.ok m₁ =>
        match mc.set_state t.dest m₁ with
        | Except.error f => Except.error (f, m₁)
        | Except.ok m₂ =>
          match mc.get_state t.dest with
          | Except.error f => Except.error (f, m₂)
          | Except.ok dst =>
            match dst.enter mt m₂ with
            | Except.error e => Except.error e
            | Except.ok m₃ => Except.ok (true, m₃)

/-- The candidate loop of Event._trigger: execute each Transition in
order; return True at the first that commits; fall off the end with the
Python implicit return None (modelled as the option value none) when
every candidate reports not-taken. -/
def runTransitions {α : Type} (mc : Machine α) (mt : MethodTable α) :
    List (Transition α) → Model α → Except (Fault × Model α) (Option Bool × Model α)
  | [], m => Except.ok (none, m)
  | t :: ts, m =>
    match t.execute mc mt m true with
    | Except.error e => Except.error e
    | Except.ok (true, m₂) => Except.ok (some true, m₂)
    | Except.ok (false, m₂) => runTransitions mc mt ts m₂

/-- Event.trigger / Event._trigger: look up the current state (ValueError
fault when unregistered), fault with MachineError when this event has no
transitions registered from it, else run the candidate list.  The
try/except re-raise in the source propagates the exception unchanged. -/
def Event.trigger {α : Type} (ev : Event α) (mc : Machine α) (mt : MethodTable α)
    (m : Model α) : Except (Fault × Model α) (Option Bool × Model α) :=
  match mc.get_state m.state with
  | Except.error f => Except.error (f, m)
  | Except.ok st =>
    match alookup st.name ev.transitions with
    | none => Except.error (Fault.machineError ev.name st.name, m)
    | some ts => runTransitions mc mt ts m

/-- Machine.is_state: the predicate bound as is_<name> on the model. -/
def Machine.is_state {α : Type} (state : String) (m : Model α) : Bool :=
  m.state == state

/-- Machine._add_trigger_to_model: unconditionally setattr the trigger
name on the model as a trigger entry point. -/
def Machine.add_trigger_to_model (a : Attrs) (trigger : String) : Attrs :=
  assocSet trigger (AttrVal.triggerEntry trigger) a

/-- The generic-trigger binding step of Machine.__init__: skip (with only
a warning) when the model already has a trigger attribute, else setattr
the generic entry point. -/
def bindGenericTrigger (a : Attrs) : Attrs :=
  if hasattr a "trigger" then a else assocSet "trigger" AttrVal.genericTrigger a

/-- The state-mutating half of Machine._add_model_to_state: append the
convention callbacks on_enter_<name> and on_exit_<name> when the model
has bound methods of those names. -/
def bindStateCallbacks {α : Type} (mt : MethodTable α) (st : State α) : State α :=
  let st₂ :=
    if (alookup ("on_enter_" ++ st.name) mt.callbacks).isSome then
      st.add_callback "on_enter" (CallbackRef.named ("on_enter_" ++ st.name))
    else st
  if (alookup ("on_exit_" ++ st₂.name) mt.callbacks).isSome then
    st₂.add_callback "on_exit" (CallbackRef.named ("on_exit_" ++ st₂.name))
  else st₂

/-- Machine._add_model_to_state: setattr the is_<name> accessor on the
model and register the convention callbacks found on the model. -/
def Machine.add_model_to_state {α : Type} (mt : MethodTable α) (a : Attrs) (st : State α) :
    State α × Attrs :=
  (bindStateCallbacks mt st,
   assocSet ("is_" ++ st.name) (AttrVal.statePredicate st.name) a)

/-- A state argument to Machine.add_state: a bare name with optional
callback lists (covers the string and dict forms) or a State instance. -/
inductive StateDesc (α : Type) where
  | nameOnly (s : String) (on_enter : List (CallbackRef α)) (on_exit : List (CallbackRef α))
  | inst (st : State α)

/-- Machine.add_state: build the State, store it in the registry under
its name, and bind the model to it immediately. -/
def Machine.add_state {α : Type} (mc : Machine α) (mt : MethodTable α) (a : Attrs)
    (sd : StateDesc α) : Machine α × Attrs :=
  let st₀ : State α :=
    match sd with
    | StateDesc.nameOnly s oe ox => State.mk s oe ox
    | StateDesc.inst st => st
  let p := Machine.add_model_to_state mt a st₀
  ({ mc with states := assocSet p.1.name p.1 mc.states }, p.2)

/-- Machine.add_transition: lazily create the Event on first use of the
trigger name (binding the trigger entry point onto the model at that
moment), then append the new Transition under the event. -/
def updateEvent {α : Type} (k : String) (t : Transition α) :
    List (String × Event α) → List (String × Event α)
  | [] => []
  | (k₂, ev) :: rest =>
    if k₂ = k then (k₂, ev.add_transition t) :: rest
    else (k₂, ev) :: updateEvent k t rest

/-- Machine.add_transition (see updateEvent): never faults. -/
def Machine.add_transition {α : Type} (mc : Machine α) (a : Attrs) (trigger source dest : String)
    (conditions : List (CondRef α)) : Machine α × Attrs :=
  let p : List (String × Event α) × Attrs :=
    if (alookup trigger mc.events).isSome then (mc.events, a)
    else (mc.events ++ [(trigger, Event.mk trigger [])], Machine.add_trigger_to_model a trigger)
  let t : Transition α := Transition.mk source dest (conditions.map Condition.mk)
  ({ mc with events := updateEvent trigger t p.1 }, p.2)

/-- The add_state loop at the top of Machine.__init__. -/
def initAddStates {α : Type} (mt : MethodTable α) :
    List (StateDesc α) → Machine α × Attrs → Machine α × Attrs
  | [], p => p
  | sd :: rest, p => initAddStates mt rest (Machine.add_state p.1 mt p.2 sd)

/-- The second model-binding pass of Machine.__init__ (the loop over
self.states calling _add_model_to_state again), state-registry half. -/
def rebindStates {α : Type} (mt : MethodTable α) (l : List (String × State α)) :
    List (String × State α) :=
  l.map (fun p => (p.1, bindStateCallbacks mt p.2))

/-- The second model-binding pass of Machine.__init__, attribute half. -/
def rebindAttrs {α : Type} (l : List (String × State α)) (a : Attrs) : Attrs :=
  l.foldl (fun acc p => assocSet ("is_" ++ p.2.name) (AttrVal.statePredicate p.2.name) acc) a

/-- The state-registration prefix of Machine.__init__: add every
supplied state, then add the initial state when it is still absent. -/
def initStates {α : Type} (descs : List (StateDesc α)) (initial : String)
    (mt : MethodTable α) (a : Attrs) : Machine α × Attrs :=
  let p₁ := initAddStates mt descs (Machine.mk [] [] initial, a)
  if (alookup initial p₁.1.states).isSome then p₁
  else Machine.add_state p₁.1 mt p₁.2 (StateDesc.nameOnly initial [] [])

/-- Machine.__init__: add every supplied state, add the initial state
when absent, bind the generic trigger entry point, bind the (still
empty) trigger set, re-bind the model to every registered state a second
time, and finally set the model state to the initial name directly,
without firing any callback. -/
def Machine.init {α : Type} (descs : List (StateDesc α)) (initial : String)
    (mt : MethodTable α) (m : Model α) (a : Attrs) :
    Except Fault (Machine α × Model α × Attrs) :=
  let p₂ := initStates descs initial mt a
  let a₃ := bindGenericTrigger p₂.2
  let a₄ := p₂.1.events.foldl (fun acc q => Machine.add_trigger_to_model acc q.1) a₃
  let mc₅ : Machine α := { p₂.1 with states := rebindStates mt p₂.1.states }
  let a₅ := rebindAttrs p₂.1.states a₄
  match Machine.set_state mc₅ initial m with
  | Except.ok m₂ => Except.ok (mc₅, m₂, a₅)
  | Except.error f => Except.error f

/-! Association-list lemmas. -/

theorem alookup_assocSet_self {β : Type _} (k : String) (v : β) (l : List (String × β)) :
    alookup k (assocSet k v l) = some v := by
  induction l with
  | nil => simp [assocSet, alookup]
  | cons p rest ih =>
    by_cases h : p.1 = k
    · simp [assocSet, alookup, h]
    · simp [assocSet, alookup, h, ih]

theorem alookup_assocSet_ne {β : Type _} (k k₂ : String) (v : β) (l : List (String × β))
    (h : k₂ ≠ k) : alookup k₂ (assocSet k v l) = alookup k₂ l := by
  have hk : ¬k = k₂ := fun hh => h hh.symm
  induction l with
  | nil => simp [assocSet, alookup, hk]
  | cons p rest ih =>
    obtain ⟨k₀, v₀⟩ := p
    by_cases hp : k₀ = k
    · subst hp
      simp [assocSet, alookup, hk]
    · by_cases hq : k₀ = k₂
      · simp [assocSet, alookup, hp, hq, h]
      · simp [assocSet, alookup, hp, hq, ih]

theorem alookup_map {β γ : Type _} (g : β → γ) (k : String) (l : List (String × β)) :
    alookup k (l.map (fun p => (p.1, g p.2))) = (alookup k l).map g := by
  induction l with
  | nil => simp [alookup]
  | cons p rest ih =>
    by_cases h : p.1 = k
    · simp [alookup, h]
    · simp [alookup, h, ih]

theorem alookup_append_fresh {β : Type _} (k : String) (v : β) (l : List (String × β))
    (h : alookup k l = none) : alookup k (l ++ [(k, v)]) = some v := by
  induction l with
  | nil => simp [alookup]
  | cons p rest ih =>
    by_cases hp : p.1 = k
    · simp [alookup, hp] at h
    · simp only [alookup, hp, if_false, List.cons_append] at h ⊢
      exact ih h

theorem alookup_updateEvent_self {α : Type} (evs : List (String × Event α)) (k : String)
    (t : Transition α) :
    alookup k (updateEvent k t evs) = (alookup k evs).map (fun e => e.add_transition t) := by
  induction evs with
  | nil => simp [updateEvent, alookup]
  | cons p rest ih =>
    obtain ⟨k₀, e₀⟩ := p
    by_cases h : k₀ = k
    · subst h
      simp [updateEvent, alookup]
    · simp [updateEvent, alookup, h, ih]

theorem alookup_addToGroup_self {β : Type _} (k : String) (v : β) (l : List (String × List β)) :
    alookup k (addToGroup k v l) = some ((alookup k l).getD [] ++ [v]) := by
  induction l with
  | nil => simp [addToGroup, alookup]
  | cons p rest ih =>
    by_cases h : p.1 = k
    · simp [addToGroup, alookup, h]
    · simp [addToGroup, alookup, h, ih]

/-! Lemmas about the condition loop, the callback loop and the
candidate loop. -/

theorem checkConditions_first_fail {α : Type} (mt : MethodTable α) (m : Model α)
    (target : Bool) (cs₁ : List (Condition α)) (c : Condition α) (cs₂ : List (Condition α))
    (hpass : ∀ c₂ ∈ cs₁, c₂.check mt m target = Except.ok true)
    (hfail : c.check mt m target = Except.ok false) :
    checkConditions mt m target (cs₁ ++ c :: cs₂) = Except.ok false := by
  induction cs₁ with
  | nil => simp [checkConditions, hfail]
  | cons c₀ rest ih =>
    have h₀ : c₀.check mt m target = Except.ok true := hpass c₀ (by simp)
    simp only [List.cons_append, checkConditions, h₀]
    exact ih (fun c₂ hc => hpass c₂ (by simp [hc]))

theorem runTransitions_skip_fail {α : Type} (mc : Machine α) (mt : MethodTable α)
    (ts₁ ts : List (Transition α)) (m : Model α)
    (hfail : ∀ t₂ ∈ ts₁, t₂.execute mc mt m true = Except.ok (false, m)) :
    runTransitions mc mt (ts₁ ++ ts) m = runTransitions mc mt ts m := by
  induction ts₁ with
  | nil => simp
  | cons t₀ rest ih =>
    have h₀ : t₀.execute mc mt m true = Except.ok (false, m) := hfail t₀ (by simp)
    simp only [List.cons_append, runTransitions, h₀]
    exact ih (fun t₂ ht => hfail t₂ (by simp [ht]))

/-- A callback function neither gains nor loses the state field: its ok
result and its raise-point model both carry the input state unchanged. -/
def PreservesState {α : Type} (f : Callback α) : Prop :=
  ∀ m : Model α,
    (∀ m₂, f m = Except.ok m₂ → m₂.state = m.state) ∧
    (∀ fl m₂, f m = Except.error (fl, m₂) → m₂.state = m.state)

theorem trigger_callback_preserves {α : Type} (mt : MethodTable α) (c : CallbackRef α)
    (hc : ∀ n f, c = CallbackRef.named n → alookup n mt.callbacks = some f → PreservesState f)
    (hd : ∀ f, c = CallbackRef.direct f → PreservesState f) :
    PreservesState (fun m => trigger_callback mt c m) := by
  intro m
  cases c with
  | named n =>
    cases hl : alookup n mt.callbacks with
    | none =>
      constructor
      · intro m₂ h
        simp [trigger_callback, hl] at h
      · intro fl m₂ h
        simp [trigger_callback, hl] at h
        exact h.2 ▸ rfl
    | some f => simpa [trigger_callback, hl] using hc n f rfl hl m
  | direct f => simpa [trigger_callback] using hd f rfl m

/-- The callback loop preserves the state field, on success and at any
raise point, when each callback in the list does. -/
theorem runCallbacks_preserves {α : Type} (mt : MethodTable α) (cbs : List (CallbackRef α))
    (h : ∀ c ∈ cbs, PreservesState (fun m => trigger_callback mt c m)) :
    ∀ m : Model α,
      (∀ m₂, runCallbacks mt cbs m = Except.ok m₂ → m₂.state = m.state) ∧
      (∀ fl m₂, runCallbacks mt cbs m = Except.error (fl, m₂) → m₂.state = m.state) := by
  induction cbs with
  | nil =>
    intro m
    constructor
    · intro m₂ hm
      simp [runCallbacks] at hm
      exact hm ▸ rfl
    · intro fl m₂ hm
      simp [runCallbacks] at hm
  | cons c rest ih =>
    intro m
    have hc := h c (by simp) m
    constructor
    · intro m₂ hm
      simp only [runCallbacks] at hm
      cases hcall : trigger_callback mt c m with
      | ok mmid =>
        rw [hcall] at hm
        have h₁ := (ih (fun c₂ hcc => h c₂ (by simp [hcc])) mmid).1 m₂ hm
        rw [h₁, hc.1 mmid hcall]
      | error e =>
        rw [hcall] at hm
        cases hm
    · intro fl m₂ hm
      simp only [runCallbacks] at hm
      cases hcall : trigger_callback mt c m with
      | ok mmid =>
        rw [hcall] at hm
        have h₁ := (ih (fun c₂ hcc => h c₂ (by simp [hcc])) mmid).2 fl m₂ hm
        rw [h₁, hc.1 mmid hcall]
      | error e =>
        rw [hcall] at hm
        cases hm
        exact hc.2 fl m₂ hcall

/-- When all Conditions pass and both endpoint states are registered,
Transition.execute is exactly: run the exit callbacks of the source on
the incoming model, write the destination name into the model, run the
enter callbacks of the destination on that updated model, return true. -/
theorem execute_commit_eq {α : Type} (mc : Machine α) (mt : MethodTable α) (t : Transition α)
    (m : Model α) (src dst : State α)
    (hsrc : alookup t.source mc.states = some src)
    (hdst : alookup t.dest mc.states = some dst)
    (hdn : dst.name = t.dest)
    (hcond : checkConditions mt m true t.conditions = Except.ok true) :
    t.execute mc mt m true =
      (match runCallbacks mt src.on_exit m with
       | Except.error e => Except.error e
       | Except.ok m₁ =>
         match runCallbacks mt dst.on_enter { m₁ with state := t.dest } with
         | Except.error e => Except.error e
         | Except.ok m₂ => Except.ok (true, m₂)) := by
  simp only [Transition.execute, Machine.get_state, Machine.set_state, State.exit, State.enter,
    hcond, hsrc, hdst, hdn]

/-- C1: for a Transition whose owned Conditions all pass (or that has no
Conditions), with both endpoint states registered, Transition.execute
runs the source exit callbacks on the model still reporting the source
name, then sets the current-state value to the destination name, then
runs the destination enter callbacks on the model already reporting the
destination name, and returns taken (true) with the enter result. -/
theorem C1_transition_commit_protocol {α : Type} (mc : Machine α) (mt : MethodTable α)
    (t : Transition α) (m : Model α) (src dst : State α) (m₁ m₂ : Model α)
    (hsrc : alookup t.source mc.states = some src)
    (hdst : alookup t.dest mc.states = some dst)
    (hdn : dst.name = t.dest)
    (hst : m.state = t.source)
    (hcond : checkConditions mt m true t.conditions = Except.ok true)
    (hexit : runCallbacks mt src.on_exit m = Except.ok m₁)
    (henter : runCallbacks mt dst.on_enter { m₁ with state := t.dest } = Except.ok m₂) :
    t.execute mc mt m true = Except.ok (true, m₂)
    ∧ m.state = t.source
    ∧ (Model.mk t.dest m₁.data : Model α).state = t.dest := by
  refine ⟨?_, hst, rfl⟩
  rw [execute_commit_eq mc mt t m src dst hsrc hdst hdn hcond]
  simp only [hexit, henter]

def mcW1 : Machine Nat :=
  Machine.mk
    [("a", State.mk "a" [] [CallbackRef.named "oe"]),
     ("b", State.mk "b" [CallbackRef.named "ie"] [])] [] "a"

def mtW1 : MethodTable Nat :=
  MethodTable.mk
    [("oe", fun m => Except.ok (Model.mk m.state (m.data + 1))),
     ("ie", fun m => Except.ok (Model.mk m.state (m.data * 10)))] []

theorem C1_witness :
    Transition.execute (Transition.mk "a" "b" []) mcW1 mtW1 (Model.mk "a" 0) true
      = Except.ok (true, Model.mk "b" 10) :=
  (C1_transition_commit_protocol mcW1 mtW1 (Transition.mk "a" "b" []) (Model.mk "a" 0)
    (State.mk "a" [] [CallbackRef.named "oe"]) (State.mk "b" [CallbackRef.named "ie"] [])
    (Model.mk "a" 1) (Model.mk "b" 10) rfl rfl rfl rfl rfl rfl rfl).1

/-- C2: within one Event, the candidates registered for the current
source state are tried in declaration order (Event.add_transition
appends at the end of the per-source list); a prefix of candidates whose
guards reject leaves the model untouched, the first fully-passing
candidate commits, and the result does not depend on the candidates
declared after it (they are quantified but never evaluated). -/
theorem C2_first_passing_candidate_commits {α : Type} (mc : Machine α) (mt : MethodTable α)
    (ev : Event α) (m m₂ : Model α) (st : State α)
    (ts₁ : List (Transition α)) (t : Transition α) (ts₂ : List (Transition α))
    (hst : alookup m.state mc.states = some st)
    (hsn : st.name = m.state)
    (hts : alookup m.state ev.transitions = some (ts₁ ++ t :: ts₂))
    (hfail : ∀ t₂ ∈ ts₁, t₂.execute mc mt m true = Except.ok (false, m))
    (htake : t.execute mc mt m true = Except.ok (true, m₂)) :
    ev.trigger mc mt m = Except.ok (some true, m₂)
    ∧ ∀ (ev₂ : Event α) (t₂ : Transition α),
        alookup t₂.source (ev₂.add_transition t₂).transitions
          = some ((alookup t₂.source ev₂.transitions).getD [] ++ [t₂]) := by
  constructor
  · simp only [Event.trigger, Machine.get_state, hst, hsn, hts]
    rw [runTransitions_skip_fail mc mt ts₁ (t :: ts₂) m hfail]
    simp [runTransitions, htake]
  · intro ev₂ t₂
    exact alookup_addToGroup_self t₂.source t₂ ev₂.transitions

def mcW2 : Machine Unit :=
  Machine.mk
    [("asleep", State.mk "asleep" [] []),
     ("hanging", State.mk "hanging" [] []),
     ("sweaty", State.mk "sweaty" [] [])] [] "asleep"

def mtW2 : MethodTable Unit :=
  MethodTable.mk [] [("is_exhausted", fun _ => Except.ok false)]

def evW2 : Event Unit :=
  Event.mk "clean_up"
    [("sweaty",
      [Transition.mk "sweaty" "asleep" [Condition.mk (CondRef.named "is_exhausted")],
       Transition.mk "sweaty" "hanging" []])]

theorem C2_witness :
    evW2.trigger mcW2 mtW2 (Model.mk "sweaty" ()) = Except.ok (some true, Model.mk "hanging" ()) :=
  (C2_first_passing_candidate_commits mcW2 mtW2 evW2 (Model.mk "sweaty" ())
    (Model.mk "hanging" ()) (State.mk "sweaty" [] [])
    [Transition.mk "sweaty" "asleep" [Condition.mk (CondRef.named "is_exhausted")]]
    (Transition.mk "sweaty" "hanging" []) [] rfl rfl rfl
    (fun t₂ ht => by rw [List.mem_singleton] at ht; subst ht; rfl) rfl).1

/-- C4: invoking a trigger while the model is in a registered state for
which the Event has no registered Transition raises the MachineError
naming the trigger and the state, with the model carried at the raise
point unchanged (in particular its current-state value). -/
theorem C4_undefined_trigger_faults {α : Type} (mc : Machine α) (mt : MethodTable α)
    (ev : Event α) (m : Model α) (st : State α)
    (hst : alookup m.state mc.states = some st)
    (hsn : st.name = m.state)
    (hno : alookup m.state ev.transitions = none) :
    ev.trigger mc mt m = Except.error (Fault.machineError ev.name m.state, m) := by
  simp only [Event.trigger, Machine.get_state, hst, hsn, hno]

theorem C4_witness :
    Event.trigger (Event.mk "wake_up" []) mcW2 mtW2 (Model.mk "asleep" ())
      = Except.error (Fault.machineError "wake_up" "asleep", Model.mk "asleep" ()) :=
  C4_undefined_trigger_faults mcW2 mtW2 (Event.mk "wake_up" []) (Model.mk "asleep" ())
    (State.mk "asleep" [] []) rfl rfl rfl

/-- C5: Transition.execute checks its Conditions strictly in declaration
order; when a prefix passes and the next Condition reports false, the
call returns not-taken (false) with the model unchanged, no callback
fired and no fault, and the result does not depend on the Conditions
declared after the failing one (they are quantified but never
evaluated). -/
theorem C5_condition_short_circuit {α : Type} (mc : Machine α) (mt : MethodTable α)
    (m : Model α) (source dest : String)
    (cs₁ : List (Condition α)) (c : Condition α) (cs₂ : List (Condition α))
    (hpass : ∀ c₂ ∈ cs₁, c₂.check mt m true = Except.ok true)
    (hfail : c.check mt m true = Except.ok false) :
    Transition.execute (Transition.mk source dest (cs₁ ++ c :: cs₂)) mc mt m true
      = Except.ok (false, m) := by
  have h := checkConditions_first_fail mt m true cs₁ c cs₂ hpass hfail
  simp only [Transition.execute, h]

def mtW5 : MethodTable Unit :=
  MethodTable.mk []
    [("p1", fun _ => Except.ok true), ("p2", fun _ => Except.ok false)]

theorem C5_witness :
    Transition.execute
      (Transition.mk "a" "b"
        [Condition.mk (CondRef.named "p1"), Condition.mk (CondRef.named "p2"),
         Condition.mk (CondRef.named "ghost")])
      (Machine.mk [] [] "a") mtW5 (Model.mk "a" ()) true
      = Except.ok (false, Model.mk "a" ()) :=
  C5_condition_short_circuit (Machine.mk [] [] "a") mtW5 (Model.mk "a" ()) "a" "b"
    [Condition.mk (CondRef.named "p1")] (Condition.mk (CondRef.named "p2"))
    [Condition.mk (CondRef.named "ghost")]
    (fun c₂ hc => by rw [List.mem_singleton] at hc; subst hc; rfl) rfl

def mcW3 : Machine Unit :=
  Machine.mk [("a", State.mk "a" [] []), ("b", State.mk "b" [] [])] [] "a"

def mtW3 : MethodTable Unit :=
  MethodTable.mk [] [("p", fun _ => Except.ok false)]

def evW3 : Event Unit :=
  Event.mk "go" [("a", [Transition.mk "a" "b" [Condition.mk (CondRef.named "p")]])]

/-- C3 (code bug): with a Transition registered for the current state
whose guard rejects, Event trigger does not return the boolean False the
claim and the docstring of Event._trigger promise: the candidate loop
falls off its end and the function returns the Python implicit None
(modelled as the option value none), silently coercing the guard-rejected
outcome into a third, non-boolean value. -/
theorem C3_all_rejected_returns_none :
    evW3.trigger mcW3 mtW3 (Model.mk "a" ()) = Except.ok (none, Model.mk "a" ()) := rfl

/-- C8: a fault raised by a guard predicate or by an enter/exit callback
propagates unmodified (same fault value, same raise-point model) through
Transition.execute and on through Event.trigger; a guard fault leaves
the model unchanged, an exit-callback fault occurs with the model still
reporting the source name, and an enter-callback fault occurs with the
current-state value already set to the destination name even though the
enter sequence did not finish. -/
theorem C8_callback_faults_propagate {α : Type} (mc : Machine α) (mt : MethodTable α)
    (ev : Event α) (t : Transition α) (m : Model α) (src dst st : State α)
    (gf f : Fault) (merr m₁ : Model α) (ts₂ : List (Transition α))
    (hsrc : alookup t.source mc.states = some src)
    (hdst : alookup t.dest mc.states = some dst)
    (hdn : dst.name = t.dest) :
    (checkConditions mt m true t.conditions = Except.error gf →
       t.execute mc mt m true = Except.error (gf, m))
    ∧ (checkConditions mt m true t.conditions = Except.ok true →
       runCallbacks mt src.on_exit m = Except.error (f, merr) →
       t.execute mc mt m true = Except.error (f, merr))
    ∧ (checkConditions mt m true t.conditions = Except.ok true →
       runCallbacks mt src.on_exit m = Except.ok m₁ →
       runCallbacks mt dst.on_enter { m₁ with state := t.dest } = Except.error (f, merr) →
       t.execute mc mt m true = Except.error (f, merr))
    ∧ ((∀ c ∈ src.on_exit, PreservesState (fun mm => trigger_callback mt c mm)) →
       m.state = t.source →
       runCallbacks mt src.on_exit m = Except.error (f, merr) →
       merr.state = t.source)
    ∧ ((∀ c ∈ dst.on_enter, PreservesState (fun mm => trigger_callback mt c mm)) →
       runCallbacks mt dst.on_enter { m₁ with state := t.dest } = Except.error (f, merr) →
       merr.state = t.dest)
    ∧ (alookup m.state mc.states = some st → st.name = m.state →
       alookup m.state ev.transitions = some (t :: ts₂) →
       t.execute mc mt m true = Except.error (f, merr) →
       ev.trigger mc mt m = Except.error (f, merr)) := by
  refine ⟨?_, ?_, ?_, ?_, ?_, ?_⟩
  · intro h
    simp only [Transition.execute, h]
  · intro hc hx
    rw [execute_commit_eq mc mt t m src dst hsrc hdst hdn hc]
    simp only [hx]
  · intro hc hx he
    rw [execute_commit_eq mc mt t m src dst hsrc hdst hdn hc]
    simp only [hx, he]
  · intro hpres hmst hx
    exact ((runCallbacks_preserves mt src.on_exit hpres m).2 f merr hx).trans hmst
  · intro hpres hx
    exact (runCallbacks_preserves mt dst.on_enter hpres { m₁ with state := t.dest }).2 f merr hx
  · intro h₁ h₂ h₃ h₄
    simp only [Event.trigger, Machine.get_state, h₁, h₂, h₃, runTransitions, h₄]

def mtW8 : MethodTable Unit :=
  MethodTable.mk [("boom", fun m => Except.error (Fault.userError "boom", m))] []

def mcW8 : Machine Unit :=
  Machine.mk [("a", State.mk "a" [] [CallbackRef.named "boom"]), ("b", State.mk "b" [] [])]
    [] "a"

theorem C8_witness :
    Transition.execute (Transition.mk "a" "b" []) mcW8 mtW8 (Model.mk "a" ()) true
      = Except.error (Fault.userError "boom", Model.mk "a" ()) :=
  (C8_callback_faults_propagate mcW8 mtW8 (Event.mk "go" []) (Transition.mk "a" "b" [])
    (Model.mk "a" ()) (State.mk "a" [] [CallbackRef.named "boom"]) (State.mk "b" [] [])
    (State.mk "a" [] [CallbackRef.named "boom"]) (Fault.userError "x") (Fault.userError "boom")
    (Model.mk "a" ()) (Model.mk "a" ()) [] rfl rfl rfl).2.1 rfl rfl

/-- C9: Machine.add_transition never faults and registers the Transition
even when the destination name is not a registered state (third
conjunct, for a trigger name first seen); the unregistered destination
only surfaces when the Transition executes with all guards passing: the
source exit callbacks have already run, and the ValueError fault is
raised with the model at that point, whose current-state value is still
the source name (second conjunct) because the commit never happened. -/
theorem C9_lazy_dest_validation {α : Type} (mc : Machine α) (mt : MethodTable α)
    (t : Transition α) (m m₁ : Model α) (src : State α)
    (hsrc : alookup t.source mc.states = some src)
    (hdst : alookup t.dest mc.states = none)
    (hcond : checkConditions mt m true t.conditions = Except.ok true)
    (hexit : runCallbacks mt src.on_exit m = Except.ok m₁) :
    t.execute mc mt m true = Except.error (Fault.valueError t.dest, m₁)
    ∧ ((∀ c ∈ src.on_exit, PreservesState (fun mm => trigger_callback mt c mm)) →
       m.state = t.source → m₁.state = t.source)
    ∧ (∀ (mc₀ : Machine α) (a₀ : Attrs) (trig : String) (conds : List (CondRef α)),
        alookup trig mc₀.events = none →
        ∃ ev₂ : Event α,
          alookup trig ((Machine.add_transition mc₀ a₀ trig t.source t.dest conds).1).events
            = some ev₂
          ∧ alookup t.source ev₂.transitions
            = some [Transition.mk t.source t.dest (conds.map Condition.mk)]) := by
  refine ⟨?_, ?_, ?_⟩
  · simp only [Transition.execute, hcond, Machine.get_state, hsrc, State.exit, hexit,
      Machine.set_state, hdst]
  · intro hpres hmst
    exact ((runCallbacks_preserves mt src.on_exit hpres m).1 m₁ hexit).trans hmst
  · intro mc₀ a₀ trig conds hfresh
    refine ⟨Event.mk trig [(t.source, [Transition.mk t.source t.dest (conds.map Condition.mk)])],
      ?_, ?_⟩
    · simp only [Machine.add_transition, hfresh, Option.isSome_none, Bool.false_eq_true,
        if_false]
      rw [alookup_updateEvent_self, alookup_append_fresh trig _ _ hfresh]
      rfl
    · simp [alookup]

def mtW9 : MethodTable Nat :=
  MethodTable.mk [("oe", fun m => Except.ok (Model.mk m.state (m.data + 1)))] []

def mcW9 : Machine Nat :=
  Machine.mk [("a", State.mk "a" [] [CallbackRef.named "oe"])] [] "a"

theorem C9_witness :
    Transition.execute (Transition.mk "a" "zz" []) mcW9 mtW9 (Model.mk "a" 0) true
      = Except.error (Fault.valueError "zz", Model.mk "a" 1) :=
  (C9_lazy_dest_validation mcW9 mtW9 (Transition.mk "a" "zz" []) (Model.mk "a" 0)
    (Model.mk "a" 1) (State.mk "a" [] [CallbackRef.named "oe"]) rfl rfl rfl rfl).1

/-- C10: when add_transition first sees a trigger name it setattr-s that
name on the model unconditionally, replacing whatever attribute was
there (the attribute namespace is universally quantified, so in
particular one already binding that name); only the generic trigger
entry point is guarded: the binding step leaves the namespace untouched
when a trigger attribute already exists, and installs the generic entry
point otherwise. -/
theorem C10_trigger_binding_overwrites (α : Type) :
    (∀ (mc : Machine α) (a : Attrs) (trig source dest : String) (conds : List (CondRef α)),
       alookup trig mc.events = none →
       alookup trig ((Machine.add_transition mc a trig source dest conds).2)
         = some (AttrVal.triggerEntry trig))
    ∧ (∀ a : Attrs, hasattr a "trigger" = true → bindGenericTrigger a = a)
    ∧ (∀ a : Attrs, hasattr a "trigger" = false →
       alookup "trigger" (bindGenericTrigger a) = some AttrVal.genericTrigger) := by
  refine ⟨?_, ?_, ?_⟩
  · intro mc a trig source dest conds hfresh
    simp only [Machine.add_transition, hfresh, Option.isSome_none, Bool.false_eq_true,
      if_false, Machine.add_trigger_to_model]
    exact alookup_assocSet_self trig (AttrVal.triggerEntry trig) a
  · intro a h
    simp [bindGenericTrigger, h]
  · intro a h
    simp only [bindGenericTrigger, h, Bool.false_eq_true, if_false]
    exact alookup_assocSet_self "trigger" AttrVal.genericTrigger a

theorem C10_witness :
    alookup "go" ((Machine.add_transition (Machine.mk [] [] "a")
      [("go", AttrVal.user 7)] "go" "a" "b" ([] : List (CondRef Unit))).2)
      = some (AttrVal.triggerEntry "go") :=
  (C10_trigger_binding_overwrites Unit).1 (Machine.mk [] [] "a") [("go", AttrVal.user 7)]
    "go" "a" "b" [] rfl

/-! Registry well-formedness: every key of the state registry maps to a
State carrying that key as its name (Machine.add_state stores each State
under its own name). -/

def StatesWF {α : Type} (l : List (String × State α)) : Prop :=
  ∀ k st, alookup k l = some st → st.name = k

theorem statesWF_nil {α : Type} : StatesWF ([] : List (String × State α)) := by
  intro k st h
  simp [alookup] at h

theorem statesWF_assocSet {α : Type} (l : List (String × State α)) (st : State α)
    (h : StatesWF l) : StatesWF (assocSet st.name st l) := by
  intro k st₂ hk
  by_cases hkk : k = st.name
  · subst hkk
    rw [alookup_assocSet_self] at hk
    injection hk with hh
    rw [← hh]
  · rw [alookup_assocSet_ne st.name k st l hkk] at hk
    exact h k st₂ hk

theorem add_callback_name {α : Type} (st : State α) (kind : String) (f : CallbackRef α) :
    (st.add_callback kind f).name = st.name := by
  unfold State.add_callback
  split_ifs <;> rfl

theorem bindStateCallbacks_name {α : Type} (mt : MethodTable α) (st : State α) :
    (bindStateCallbacks mt st).name = st.name := by
  unfold bindStateCallbacks
  by_cases h₁ : (alookup ("on_enter_" ++ st.name) mt.callbacks).isSome = true <;>
    by_cases h₂ : (alookup ("on_exit_" ++ st.name) mt.callbacks).isSome = true <;>
    simp [h₁, h₂, add_callback_name]

theorem add_state_WF {α : Type} (mc : Machine α) (mt : MethodTable α) (a : Attrs)
    (sd : StateDesc α) (h : StatesWF mc.states) :
    StatesWF ((Machine.add_state mc mt a sd).1).states := by
  simp only [Machine.add_state, Machine.add_model_to_state]
  exact statesWF_assocSet mc.states _ h

theorem initAddStates_WF {α : Type} (mt : MethodTable α) (descs : List (StateDesc α))
    (p : Machine α × Attrs) (h : StatesWF p.1.states) :
    StatesWF ((initAddStates mt descs p).1).states := by
  induction descs generalizing p with
  | nil => exact h
  | cons sd rest ih => exact ih _ (add_state_WF p.1 mt p.2 sd h)

theorem initStates_WF {α : Type} (descs : List (StateDesc α)) (initial : String)
    (mt : MethodTable α) (a : Attrs) :
    StatesWF ((initStates descs initial mt a).1).states := by
  unfold initStates
  by_cases h : (alookup initial
      ((initAddStates mt descs (Machine.mk [] [] initial, a)).1).states).isSome = true
  · rw [if_pos h]
    exact initAddStates_WF mt descs _ statesWF_nil
  · rw [if_neg h]
    exact add_state_WF _ mt _ _ (initAddStates_WF mt descs _ statesWF_nil)

theorem initStates_has_initial {α : Type} (descs : List (StateDesc α)) (initial : String)
    (mt : MethodTable α) (a : Attrs) :
    (alookup initial ((initStates descs initial mt a).1).states).isSome = true := by
  unfold initStates
  by_cases h : (alookup initial
      ((initAddStates mt descs (Machine.mk [] [] initial, a)).1).states).isSome = true
  · rw [if_pos h]
    exact h
  · rw [if_neg h]
    simp only [Machine.add_state, Machine.add_model_to_state]
    rw [bindStateCallbacks_name]
    simp [alookup_assocSet_self]

theorem rebindStates_alookup {α : Type} (mt : MethodTable α) (l : List (String × State α))
    (k : String) :
    alookup k (rebindStates mt l) = (alookup k l).map (bindStateCallbacks mt) :=
  alookup_map (bindStateCallbacks mt) k l

theorem rebindStates_WF {α : Type} (mt : MethodTable α) (l : List (String × State α))
    (h : StatesWF l) : StatesWF (rebindStates mt l) := by
  intro k st hk
  rw [rebindStates_alookup] at hk
  cases hl : alookup k l with
  | none => rw [hl] at hk; cases hk
  | some st₀ =>
    rw [hl] at hk
    injection hk with hh
    rw [← hh, bindStateCallbacks_name]
    exact h k st₀ hl

/-- C6: Machine construction always succeeds; immediately afterwards the
model reports the declared initial state, the model data is exactly the
data it was given (so no enter or exit callback has fired, whatever
callbacks the method table holds), and the initial state is present in
the state registry — the supplied state list is arbitrary and may omit
it. -/
theorem C6_construction_initial_state {α : Type} (descs : List (StateDesc α)) (initial : String)
    (mt : MethodTable α) (m : Model α) (a : Attrs) :
    ∃ (mc : Machine α) (m₂ : Model α) (a₂ : Attrs),
      Machine.init descs initial mt m a = Except.ok (mc, m₂, a₂)
      ∧ m₂.state = initial ∧ m₂.data = m.data
      ∧ (alookup initial mc.states).isSome = true := by
  obtain ⟨st, hst⟩ : ∃ st,
      alookup initial (rebindStates mt ((initStates descs initial mt a).1).states)
        = some st := by
    have hsome := initStates_has_initial descs initial mt a
    cases hl : alookup initial ((initStates descs initial mt a).1).states with
    | none => rw [hl] at hsome; simp at hsome
    | some st₀ => exact ⟨bindStateCallbacks mt st₀, by rw [rebindStates_alookup, hl]; rfl⟩
  have hname : st.name = initial :=
    rebindStates_WF mt _ (initStates_WF descs initial mt a) initial st hst
  have hinit : Machine.init descs initial mt m a
      = Except.ok
          ({ (initStates descs initial mt a).1 with
             states := rebindStates mt ((initStates descs initial mt a).1).states },
           { m with state := st.name },
           rebindAttrs ((initStates descs initial mt a).1).states
             (((initStates descs initial mt a).1).events.foldl
               (fun acc q => Machine.add_trigger_to_model acc q.1)
               (bindGenericTrigger (initStates descs initial mt a).2))) := by
    simp only [Machine.init, Machine.set_state, Machine.get_state, hst]
  exact ⟨_, _, _, hinit, hname, rfl, by rw [show ({ (initStates descs initial mt a).1 with
    states := rebindStates mt ((initStates descs initial mt a).1).states } : Machine α).states
    = rebindStates mt ((initStates descs initial mt a).1).states from rfl, hst]; rfl⟩

/-- The method table of the C7 scenario: the model exposes a bound
method on_exit_asleep that increments a counter in the model data. -/
def mt7 : MethodTable Nat :=
  MethodTable.mk [("on_exit_asleep", fun m => Except.ok (Model.mk m.state (m.data + 1)))] []

/-- Machine construction of the C7 scenario: states asleep and hanging,
initial asleep, model data 0. -/
def init7 : Except Fault (Machine Nat × Model Nat × Attrs) :=
  Machine.init [StateDesc.nameOnly "asleep" [] [], StateDesc.nameOnly "hanging" [] []]
    "asleep" mt7 (Model.mk "boot" 0) []

/-- Observation of the constructed asleep State: how many exit callback
references it holds, and the result of running its exit sequence once on
the post-construction model. -/
def asleepExitOutcome : Option (Nat × Except (Fault × Model Nat) (Model Nat)) :=
  init7.toOption.bind fun r =>
    (alookup "asleep" r.1.states).map fun st => (st.on_exit.length, st.exit mt7 r.2.1)

/-- C7 (code bug): for a state supplied to the Machine constructor, the
convention-named bound method on_exit_asleep is registered twice, not
once — Machine.add_state binds the model to the state and the
constructor then re-binds every registered state a second time — so the
constructed asleep State holds two copies of the callback reference and
one exit of asleep fires the callback twice (the counter ends at 2). -/
theorem C7_convention_callback_bound_twice :
    asleepExitOutcome = some (2, Except.ok (Model.mk "asleep" 2)) := by rfl

end FSM
